import Mathlib

/-
Shallow embedding of skipper's cluster rate limiter backed by Redis
(src/ratelimit/redis.go).  The limiter is modelled per client key: all Redis
operations of one call address the same key, so the Redis state is the single
sorted-set bucket behind that key (entries plus TTL).  Machine integers
(int64 / time.Duration) are modelled as mathematical Int with explicit
saturation (time.Time.Sub) and wrap-around (Duration arithmetic) where the Go
semantics demand it.  Transport failures of individual Redis commands are
injected through a fault profile; metrics and tracing are recorded as an
effect trace.
-/

namespace Skipper

namespace Ratelimit

/-- Smallest value of a Go int64 (and of time.Duration): -2^63. -/
def i64min : Int := -9223372036854775808

/-- Largest value of a Go int64 (and of time.Duration): 2^63 - 1. -/
def i64max : Int := 9223372036854775807

/-- Wrap a mathematical integer into int64 range (literals are 2^63 and
2^64), modelling Go's two's complement overflow on int64 / time.Duration
arithmetic. -/
def wrap64 (x : Int) : Int :=
  (x + 9223372036854775808) % 18446744073709551616 - 9223372036854775808

/-- Nanoseconds since the Unix epoch of Go's zero `time.Time`
(0001-01-01T00:00:00 UTC): -62135596800 seconds. -/
def zeroTimeNanos : Int := -62135596800000000000

/-- Go `time.Time.Sub`: the difference of two instants (here: nanoseconds
since the Unix epoch), saturating at the int64 Duration bounds. -/
def timeSub (t u : Int) : Int :=
  let d := t - u
  if d < i64min then i64min else if i64max < d then i64max else d

/-- A sorted-set member as seen through the go-redis client: normally a
string; `nonString` stands for any value of another dynamic type, used to
model malformed bucket data (the code checks `z.Member.(string)`). -/
inductive RMember where
  | str (s : String)
  | nonString
  deriving DecidableEq, Repr

/-- One element of a Redis sorted set: a score and a member. -/
structure ZEntry where
  score : Int
  member : RMember
  deriving DecidableEq, Repr

/-- The Redis value behind one (group, client-key) pair: the sorted set of
admission timestamps plus its TTL (none = no expiry set). -/
structure RedisBucket where
  entries : List ZEntry
  ttlNanos : Option Int
  deriving DecidableEq, Repr

/-- ZREMRANGEBYSCORE key lo hi: remove every entry whose score lies in the
closed range [lo, hi]. -/
def zremRangeByScore (b : RedisBucket) (lo hi : Int) : RedisBucket :=
  { b with entries := b.entries.filter fun e => !(lo ≤ e.score && e.score ≤ hi) }

/-- ZCARD key: the cardinality of the sorted set. -/
def zcard (b : RedisBucket) : Int := b.entries.length

/-- ZADD key score member: duplicate member gets its score updated, otherwise
the pair is inserted. -/
def zadd (b : RedisBucket) (sc : Int) (m : RMember) : RedisBucket :=
  if b.entries.any fun e => e.member = m then
    { b with entries := b.entries.map fun e =>
        if e.member = m then { score := sc, member := m } else e }
  else
    { b with entries := b.entries ++ [{ score := sc, member := m }] }

/-- EXPIRE key ttl: set the bucket's TTL. -/
def expire (b : RedisBucket) (ttl : Int) : RedisBucket :=
  { b with ttlNanos := some ttl }

/-- ZRANGEBYSCORE key lo hi LIMIT 0 1 WITHSCORES: the entry of lowest score
within the closed range, if any (Redis returns ascending by score; on a score
tie the model keeps the first listed entry). -/
def zrangeFirst (b : RedisBucket) (lo hi : Int) : Option ZEntry :=
  (b.entries.filter fun e => lo ≤ e.score && e.score ≤ hi).foldl
    (fun acc e =>
      match acc with
      | none => some e
      | some m => if e.score < m.score then some e else acc)
    none

/-- Which Redis commands of a call fail with a transport error. A failing
command leaves the bucket unchanged. -/
structure Faults where
  zremFail : Bool
  zcardFail : Bool
  zaddFail : Bool
  expireFail : Bool
  zrangeFail : Bool
  deriving DecidableEq, Repr

/-- All Redis commands succeed. -/
def noFaults : Faults :=
  { zremFail := false, zcardFail := false, zaddFail := false
    expireFail := false, zrangeFail := false }

/-- All Redis commands fail. -/
def allFaults : Faults :=
  { zremFail := true, zcardFail := true, zaddFail := true
    expireFail := true, zrangeFail := true }

/-- Observable side effects of a limiter call: metric counter increments,
metric timers (MeasureSince), finished tracing spans, and the Redis commands
issued (by command name, in program order). -/
inductive Effect where
  | incCounter (name : String)
  | measureSince (key : String)
  | spanFinish (name : String) (failed : Bool)
  | redisOp (name : String)
  deriving DecidableEq, Repr

/-- Span names from the source constants. -/
def allowAddSpanName : String := "redis_allow_add_card"

def allowExpireSpanName : String := "redis_allow_expire"

def allowCheckSpanName : String := "redis_allow_check_card"

def allowCheckRemRangeSpanName : String := "redis_allow_check_rem_range"

def oldestScoreSpanName : String := "redis_oldest_score"

/-- startSpan: a span is created (and later finished) only when the ambient
context carries a parent span; `context.Background()` carries none, so the
convenience variants never produce spans. The context is modelled by whether
a parent span is present. -/
def spanEff (ctx : Bool) (name : String) (failed : Bool) : List Effect :=
  if ctx then [.spanFinish name failed] else []

/-- The limiter configuration (clusterLimitRedis fields that decide
behaviour; ring/metrics/tracer handles are implicit in the model). -/
structure clusterLimitRedis where
  group : String
  maxHits : Int
  window : Int
  deriving DecidableEq, Repr

/-- measureQuery for the Allow path: timer key
`swarm.redis.query.allow.<result>` (allowMetricsFormat), with a `.<group>`
suffix when the group is non-empty (allowMetricsFormatWithGroup). -/
def allowQueryKey (group : String) (failed : Bool) : String :=
  let result := if failed then "failure" else "success"
  if group = "" then "swarm.redis.query.allow." ++ result
  else "swarm.redis.query.allow." ++ result ++ "." ++ group

/-- measureQuery for the RetryAfter path: timer key
`swarm.redis.query.retryafter.<result>`, with a `.<group>` suffix when the
group is non-empty. -/
def retryAfterQueryKey (group : String) (failed : Bool) : String :=
  let result := if failed then "failure" else "success"
  if group = "" then "swarm.redis.query.retryafter." ++ result
  else "swarm.redis.query.retryafter." ++ result ++ "." ++ group

/-- The deferred measureQuery effect of AllowContext. -/
def allowMeasure (c : clusterLimitRedis) (failed : Bool) : Effect :=
  .measureSince (allowQueryKey c.group failed)

/-- The deferred measureQuery effect of RetryAfterContext. -/
def retryAfterMeasure (c : clusterLimitRedis) (failed : Bool) : Effect :=
  .measureSince (retryAfterQueryKey c.group failed)

/-- allowCheckCard: ZREMRANGEBYSCORE(key, 0.0, clearBefore) then ZCARD(key),
each under its span; the first failure aborts with an error. Returns the
count, the bucket after the prune, and the effects. -/
def allowCheckCard (_c : clusterLimitRedis) (ctx : Bool) (f : Faults)
    (b : RedisBucket) (clearBefore : Int) :
    Except Unit Int × RedisBucket × List Effect :=
  if f.zremFail then
    (.error (), b, [.redisOp "zremrangebyscore"] ++
      spanEff ctx allowCheckRemRangeSpanName true)
  else
    let b1 := zremRangeByScore b 0 clearBefore
    let effRem := [Effect.redisOp "zremrangebyscore"] ++
      spanEff ctx allowCheckRemRangeSpanName false
    if f.zcardFail then
      (.error (), b1, effRem ++ [.redisOp "zcard"] ++
        spanEff ctx allowCheckSpanName true)
    else
      (.ok (zcard b1), b1, effRem ++ [.redisOp "zcard"] ++
        spanEff ctx allowCheckSpanName false)

/-- Result of an Allow call: the decision, the bucket afterwards, and the
observable effects in order (the deferred measureQuery last). -/
structure AllowResult where
  allowed : Bool
  bucket : RedisBucket
  effects : List Effect
  deriving DecidableEq, Repr

/-- The admit path of AllowContext after the decision: ZADD of the admission
instant (score = member = now in nanoseconds; go-redis serialises the int64
member as its decimal string), then EXPIRE(key, window + 1s). A failed EXPIRE
returns true at once with a failure-labelled timer and no allows counter;
otherwise the allows counter is emitted and the timer is labelled failure iff
any earlier op of the call failed. -/
def allowTail (c : clusterLimitRedis) (ctx : Bool) (f : Faults)
    (b1 : RedisBucket) (now : Int) (cardFailed : Bool) (effs : List Effect) :
    AllowResult :=
  let zaddStep :=
    if f.zaddFail then
      (b1, true, [Effect.redisOp "zadd"] ++ spanEff ctx allowAddSpanName true)
    else
      (zadd b1 now (.str (toString now)), false,
        [Effect.redisOp "zadd"] ++ spanEff ctx allowAddSpanName false)
  let b2 := zaddStep.1
  let failedSoFar := cardFailed || zaddStep.2.1
  if f.expireFail then
    { allowed := true, bucket := b2,
      effects := effs ++ zaddStep.2.2 ++ [.redisOp "expire"] ++
        spanEff ctx allowExpireSpanName true ++ [allowMeasure c true] }
  else
    { allowed := true, bucket := expire b2 (c.window + 1000000000),
      effects := effs ++ zaddStep.2.2 ++ [.redisOp "expire"] ++
        spanEff ctx allowExpireSpanName false ++
        [.incCounter "swarm.redis.allows", allowMeasure c failedSoFar] }

/-- AllowContext: increment `swarm.redis.total`; prune and count via
allowCheckCard; when the prune+count succeeded and count ≥ maxHits, emit
`swarm.redis.forbids` and deny; otherwise take the admit path (fail-open on
any prune/count error). The deferred measureQuery timer is always emitted
last, labelled failure iff some Redis op of the call failed. -/
def AllowContext (c : clusterLimitRedis) (ctx : Bool) (f : Faults)
    (b : RedisBucket) (now : Int) : AllowResult :=
  match allowCheckCard c ctx f b (now - c.window) with
  | (.ok count, b1, effCard) =>
    if c.maxHits ≤ count then
      { allowed := false, bucket := b1,
        effects := [Effect.incCounter "swarm.redis.total"] ++ effCard ++
          [.incCounter "swarm.redis.forbids", allowMeasure c false] }
    else
      allowTail c ctx f b1 now false
        ([Effect.incCounter "swarm.redis.total"] ++ effCard)
  | (.error _, b1, effCard) =>
    allowTail c ctx f b1 now true
      ([Effect.incCounter "swarm.redis.total"] ++ effCard)

/-- Allow: AllowContext with context.Background() (no parent span). -/
def Allow (c : clusterLimitRedis) (f : Faults) (b : RedisBucket) (now : Int) :
    AllowResult :=
  AllowContext c false f b now

/-- Go strconv digit run to a natural number. -/
def digitsToNat (cs : List Char) : Nat :=
  cs.foldl (fun a c => a * 10 + (c.toNat - 48)) 0

/-- Go `strconv.ParseInt(s, 10, 64)`: an optional sign followed by a
non-empty run of decimal digits, the value fitting in int64; anything else is
an error (none). -/
def goParseInt64 (s : String) : Option Int :=
  let cs := s.data
  let signed : Bool × List Char :=
    match cs with
    | '+' :: rest => (false, rest)
    | '-' :: rest => (true, rest)
    | _ => (false, cs)
  let ds := signed.2
  if ds.isEmpty then none
  else if ds.all Char.isDigit then
    let n : Int := (digitsToNat ds : Nat)
    let v := if signed.1 then -n else n
    if i64min ≤ v && v ≤ i64max then some v else none
  else none

/-- Errors of the oldest query: a transport error of ZRANGEBYSCORE, a member
of non-string type, or a member that fails strconv.ParseInt. -/
inductive OldestErr where
  | transport
  | notString
  | parseFailed
  deriving DecidableEq, Repr

instance : DecidableEq (Except OldestErr Int) := fun x y =>
  match x, y with
  | .error a, .error b =>
    if h : a = b then isTrue (h ▸ rfl)
    else isFalse fun hc => h (by cases hc; rfl)
  | .ok a, .ok b =>
    if h : a = b then isTrue (h ▸ rfl)
    else isFalse fun hc => h (by cases hc; rfl)
  | .error _, .ok _ => isFalse fun hc => by cases hc
  | .ok _, .error _ => isFalse fun hc => by cases hc

/-- oldest: ZRANGEBYSCORE(key, 0.0, now, LIMIT 0 1) under the
redis_oldest_score span. An empty result is not an error and yields the zero
time; a non-string or unparseable member is an error; otherwise the member
parses to the instant time.Unix(0, v). `now2` is the clock sample this query
takes for its upper score bound. -/
def oldest (f : Faults) (ctx : Bool) (b : RedisBucket) (now2 : Int) :
    Except OldestErr Int × List Effect :=
  let effQ : List Effect := [.redisOp "zrangebyscore"]
  if f.zrangeFail then
    (.error .transport, effQ ++ spanEff ctx oldestScoreSpanName true)
  else
    match zrangeFirst b 0 now2 with
    | none => (.ok zeroTimeNanos, effQ ++ spanEff ctx oldestScoreSpanName false)
    | some z =>
      match z.member with
      | .nonString => (.error .notString, effQ ++ spanEff ctx oldestScoreSpanName true)
      | .str s =>
        match goParseInt64 s with
        | none => (.error .parseFailed, effQ ++ spanEff ctx oldestScoreSpanName true)
        | some v => (.ok v, effQ ++ spanEff ctx oldestScoreSpanName false)

/-- deltaFrom: window − (from − oldest), where the subtraction of instants is
time.Time.Sub (saturating) and the outer Duration subtraction wraps on int64.
Errors of the oldest query propagate. `tFrom` is the caller's reference
instant, `now2` the clock sample of the inner oldest query. -/
def deltaFrom (c : clusterLimitRedis) (ctx : Bool) (f : Faults)
    (b : RedisBucket) (tFrom now2 : Int) : Except OldestErr Int × List Effect :=
  match oldest f ctx b now2 with
  | (.error e, eff) => (.error e, eff)
  | (.ok old, eff) => (.ok (wrap64 (c.window - timeSub tFrom old)), eff)

/-- Delta: deltaFrom with context.Background() and from = now; on any error
of the oldest query it returns the zero duration. -/
def Delta (c : clusterLimitRedis) (f : Faults) (b : RedisBucket)
    (now now2 : Int) : Int × List Effect :=
  match deltaFrom c false f b now now2 with
  | (.error _, eff) => (0, eff)
  | (.ok d, eff) => (d, eff)

/-- Oldest: the public wrapper over the oldest query with
context.Background(); on any error it returns the zero time. -/
def Oldest (f : Faults) (b : RedisBucket) (now2 : Int) : Int × List Effect :=
  match oldest f false b now2 with
  | (.error _, eff) => (zeroTimeNanos, eff)
  | (.ok t, eff) => (t, eff)

/-- RetryAfterContext: compute deltaFrom with from = now; on error return
minWait = 1 with a failure-labelled retryafter timer; otherwise let
res = retr / time.Second in Go Duration division (truncation toward zero) and
return res + 1 when res > 0, else 1, with a success-labelled timer. The
deferred measureQuery is emitted last. -/
def RetryAfterContext (c : clusterLimitRedis) (ctx : Bool) (f : Faults)
    (b : RedisBucket) (now now2 : Int) : Int × List Effect :=
  match deltaFrom c ctx f b now now2 with
  | (.error _, eff) => (1, eff ++ [retryAfterMeasure c true])
  | (.ok retr, eff) =>
    if 0 < Int.tdiv retr 1000000000 then
      (Int.tdiv retr 1000000000 + 1, eff ++ [retryAfterMeasure c false])
    else (1, eff ++ [retryAfterMeasure c false])

/-- RetryAfter: RetryAfterContext with context.Background(). -/
def RetryAfter (c : clusterLimitRedis) (f : Faults) (b : RedisBucket)
    (now now2 : Int) : Int × List Effect :=
  RetryAfterContext c false f b now now2

/-- Close has an empty body: no Redis command, no metric, no state change. -/
def Close (b : RedisBucket) : RedisBucket × List Effect := (b, [])

/-- Resize has an empty body: its arguments are ignored and nothing happens. -/
def Resize (_s : String) (_n : Int) (b : RedisBucket) :
    RedisBucket × List Effect := (b, [])

/-- A call to one of the two no-op operations. -/
inductive NoopCall where
  | close
  | resize (s : String) (n : Int)
  deriving DecidableEq, Repr

/-- One step of a Resize/Close call sequence: dispatch the call on the
current bucket and append its effects to the trace. -/
def noopStep (acc : RedisBucket × List Effect) (call : NoopCall) :
    RedisBucket × List Effect :=
  match call with
  | .close =>
    let r := Close acc.1
    (r.1, acc.2 ++ r.2)
  | .resize s n =>
    let r := Resize s n acc.1
    (r.1, acc.2 ++ r.2)

/-- Run a sequence of Resize/Close calls, threading the bucket and
accumulating effects. -/
def runNoops (b : RedisBucket) (calls : List NoopCall) :
    RedisBucket × List Effect :=
  calls.foldl noopStep (b, [])

/-- The exported methods of clusterLimitRedis, as declared in the source. -/
def exportedLimiterMethods : List String :=
  ["AllowContext", "Allow", "Close", "Delta", "Oldest", "Resize",
   "RetryAfterContext", "RetryAfter"]

/-- The decision predicate of AllowContext: the call denies exactly when the
prune and the count both succeed and the count (taken after the prune)
reaches maxHits. -/
def deniedB (c : clusterLimitRedis) (f : Faults) (b : RedisBucket)
    (now : Int) : Bool :=
  !f.zremFail && !f.zcardFail &&
    c.maxHits ≤ zcard (zremRangeByScore b 0 (now - c.window))

/-- Sample limiter of the spec's concrete scenarios: window = 10s,
maxHits = 3, group = "g". -/
def sampleLimiter : clusterLimitRedis :=
  { group := "g", maxHits := 3, window := 10000000000 }

/-- An empty bucket. -/
def emptyBucket : RedisBucket := { entries := [], ttlNanos := none }

/-- The bucket after scenario S1's three admissions at t = 0s, 1s, 2s. -/
def s1Bucket : RedisBucket :=
  { entries :=
      [{ score := 0, member := .str "0" },
       { score := 1000000000, member := .str "1000000000" },
       { score := 2000000000, member := .str "2000000000" }],
    ttlNanos := some 11000000000 }

/-- A bucket whose only entry's member does not parse as an integer. -/
def malformedBucket : RedisBucket :=
  { entries := [{ score := 5, member := .str "abc" }], ttlNanos := none }

/-- Integers within the int64 range are unchanged by the wrap-around. -/
theorem wrap64_eq_self {x : Int} (h1 : i64min ≤ x) (h2 : x ≤ i64max) :
    wrap64 x = x := by
  unfold i64min at h1
  unfold i64max at h2
  unfold wrap64
  rw [Int.emod_eq_of_lt (by omega) (by omega)]
  omega

/-- time.Time.Sub is plain subtraction when the difference is in range. -/
theorem timeSub_eq_sub {t u : Int} (h1 : i64min ≤ t - u) (h2 : t - u ≤ i64max) :
    timeSub t u = t - u := by
  unfold i64min at h1
  unfold i64max at h2
  unfold timeSub
  rw [if_neg (by unfold i64min; omega), if_neg (by unfold i64max; omega)]

/-- time.Time.Sub saturates at the maximal Duration when the difference
overflows upward. -/
theorem timeSub_sat_max {t u : Int} (h : i64max < t - u) :
    timeSub t u = i64max := by
  unfold i64max at h
  unfold timeSub
  rw [if_neg (by unfold i64min; omega), if_pos (by unfold i64max; omega)]

/-- Truncating division of a non-positive dividend by a non-negative divisor
is non-positive. -/
theorem tdiv_nonpos_of_nonpos {d n : Int} (hd : d ≤ 0) (hn : 0 ≤ n) :
    Int.tdiv d n ≤ 0 := by
  have h := Int.tdiv_nonneg (show (0:Int) ≤ -d by omega) hn
  rw [Int.neg_tdiv] at h
  omega

/-- After a ZADD the pair (score, member) that was added is in the set,
whether the member was fresh or had its score updated. -/
theorem zadd_mem (b : RedisBucket) (sc : Int) (m : RMember) :
    ZEntry.mk sc m ∈ (zadd b sc m).entries := by
  unfold zadd
  split
  · next h =>
    rw [List.any_eq_true] at h
    obtain ⟨e, he, hm⟩ := h
    have hm' : e.member = m := by simpa using hm
    have := List.mem_map_of_mem
      (fun e => if e.member = m then ZEntry.mk sc m else e) he
    simpa [hm'] using this
  · exact List.mem_append_right _ (List.mem_singleton.mpr rfl)

/-- A fold of noopStep leaves its accumulator untouched. -/
theorem noopStep_foldl (calls : List NoopCall) :
    ∀ acc : RedisBucket × List Effect, calls.foldl noopStep acc = acc := by
  induction calls with
  | nil => intro acc; rfl
  | cons hd tl ih =>
    intro acc
    have hstep : noopStep acc hd = acc := by
      cases hd <;> simp [noopStep, Close, Resize]
    rw [List.foldl_cons, hstep, ih]

/-- C9: Resize and Close are no-ops: any interleaved sequence of Resize and
Close calls leaves the bucket exactly as it was and produces no observable
effect (no Redis command, no metric, no span). -/
theorem resize_close_noop (b : RedisBucket) (calls : List NoopCall) :
    runNoops b calls = (b, []) := by
  unfold runNoops
  exact noopStep_foldl calls (b, [])

/-- C10: when the oldest-entry query fails (transport error or malformed
data), Delta returns exactly the zero duration, not a negative value. -/
theorem delta_error_zero (c : clusterLimitRedis) (f : Faults)
    (b : RedisBucket) (now now2 : Int) (e : OldestErr)
    (h : (deltaFrom c false f b now now2).1 = .error e) :
    (Delta c f b now now2).1 = 0 := by
  unfold Delta
  split
  · rfl
  · next d eff heq => rw [heq] at h; cases h

/-- C10 witness: with a failing ZRANGEBYSCORE the delta query errs and Delta
returns 0. -/
theorem delta_error_zero_witness :
    (deltaFrom sampleLimiter false allFaults emptyBucket 0 0).1 =
      .error OldestErr.transport ∧
    (Delta sampleLimiter allFaults emptyBucket 0 0).1 = 0 :=
  ⟨by decide,
   delta_error_zero sampleLimiter allFaults emptyBucket 0 0
     OldestErr.transport (by decide)⟩

/-- C8 counterexample: the limiter exports no DeltaContext method, so it is
not the case that each of Allow, RetryAfter, Delta, Oldest has a -Context
variant. -/
theorem no_delta_context_method :
    ¬ ("DeltaContext" ∈ exportedLimiterMethods) := by decide

/-- C8 amended: Allow and RetryAfter have exported -Context variants, and
the convenience form equals the -Context form applied to the span-free
background context; Delta and Oldest are exported only in convenience form
(no -Context variant), internally supplying the background context
themselves. -/
theorem context_variant_equivalence (c : clusterLimitRedis) (f : Faults)
    (b : RedisBucket) (now now2 : Int) :
    "AllowContext" ∈ exportedLimiterMethods ∧
    "Allow" ∈ exportedLimiterMethods ∧
    "RetryAfterContext" ∈ exportedLimiterMethods ∧
    "RetryAfter" ∈ exportedLimiterMethods ∧
    "DeltaContext" ∉ exportedLimiterMethods ∧
    "OldestContext" ∉ exportedLimiterMethods ∧
    Allow c f b now = AllowContext c false f b now ∧
    RetryAfter c f b now now2 = RetryAfterContext c false f b now now2 :=
  ⟨by decide, by decide, by decide, by decide, by decide, by decide, rfl, rfl⟩

/-- Span effects contain no counter increment. -/
theorem spanEff_count_incCounter (ctx : Bool) (n : String) (fl : Bool)
    (t : String) :
    (spanEff ctx n fl).count (Effect.incCounter t) = 0 := by
  cases ctx <;> simp [spanEff, List.count_cons, List.count_nil]

/-- Span effects contain no Redis command. -/
theorem spanEff_count_redisOp (ctx : Bool) (n : String) (fl : Bool)
    (t : String) :
    (spanEff ctx n fl).count (Effect.redisOp t) = 0 := by
  cases ctx <;> simp [spanEff, List.count_cons, List.count_nil]

/-- The oldest query emits no counter increments (only the Redis command and
a possible span). -/
theorem oldest_snd_no_counter (f : Faults) (ctx : Bool) (b : RedisBucket)
    (now2 : Int) (t : String) :
    ((oldest f ctx b now2).2).count (Effect.incCounter t) = 0 := by
  unfold oldest
  cases hf : f.zrangeFail <;> cases ctx <;>
    simp [spanEff, List.count_append, List.count_cons, List.count_nil] <;>
    (repeat' split) <;>
    simp [List.count_append, List.count_cons, List.count_nil]

/-- deltaFrom passes the effects of the oldest query through unchanged. -/
theorem deltaFrom_snd (c : clusterLimitRedis) (ctx : Bool) (f : Faults)
    (b : RedisBucket) (tFrom now2 : Int) :
    (deltaFrom c ctx f b tFrom now2).2 = (oldest f ctx b now2).2 := by
  unfold deltaFrom
  split <;> (rename_i heq; rw [heq])

/-- C5 counterexample: a RetryAfterContext call does not increment
swarm.redis.total at all; at this concrete input the counter is incremented
zero times, not exactly once as the claim requires of every public call. -/
theorem retryafter_no_total_counter :
    ¬ ((RetryAfterContext sampleLimiter false noFaults emptyBucket 0 0).2.count
        (Effect.incCounter "swarm.redis.total") = 1) := by decide

/-- C5 amended: Allow/AllowContext increments the counter swarm.redis.total
exactly once per call, on every path; RetryAfter/RetryAfterContext never
increments it. -/
theorem total_counter_per_call (c : clusterLimitRedis) (ctx : Bool)
    (f : Faults) (b : RedisBucket) (now now2 : Int) :
    (AllowContext c ctx f b now).effects.count
      (Effect.incCounter "swarm.redis.total") = 1 ∧
    (RetryAfterContext c ctx f b now now2).2.count
      (Effect.incCounter "swarm.redis.total") = 0 := by
  constructor
  · obtain ⟨f1, f2, f3, f4, f5⟩ := f
    cases f1 <;> cases f2 <;> cases f3 <;> cases f4 <;> cases ctx <;>
      simp [AllowContext, allowCheckCard, allowTail, spanEff, allowMeasure,
        List.count_append, List.count_cons, List.count_nil] <;>
      (try split) <;>
      simp [List.count_append, List.count_cons, List.count_nil]
  · unfold RetryAfterContext
    split
    · rename_i e eff heq
      have he : (deltaFrom c ctx f b now now2).2 = eff := by rw [heq]
      rw [List.count_append, ← he, deltaFrom_snd, oldest_snd_no_counter]
      simp [retryAfterMeasure, List.count_cons, List.count_nil]
    · rename_i retr eff heq
      have he : (deltaFrom c ctx f b now now2).2 = eff := by rw [heq]
      split <;>
        (rw [List.count_append, ← he, deltaFrom_snd, oldest_snd_no_counter]
         simp [retryAfterMeasure, List.count_cons, List.count_nil])

/-- Truncating (Go) and flooring (spec) division by one second agree on the
retry-after formula: positivity of the quotient and, on the positive side,
the quotient itself coincide. -/
theorem secs_trunc_floor_agree (d : Int) :
    (if 0 < Int.tdiv d 1000000000 then Int.tdiv d 1000000000 + 1 else 1)
      = if 0 < Int.fdiv d 1000000000 then Int.fdiv d 1000000000 + 1 else 1 := by
  rcases le_or_lt 0 d with h | h
  · rw [Int.tdiv_eq_ediv h (by norm_num), Int.fdiv_eq_ediv _ (by norm_num)]
  · have h1 : Int.tdiv d 1000000000 ≤ 0 :=
      tdiv_nonpos_of_nonpos h.le (by norm_num)
    have h2 : Int.fdiv d 1000000000 ≤ 0 := by
      rw [Int.fdiv_eq_ediv _ (by norm_num)]
      by_contra hc
      push_neg at hc
      have h3 : 1 ≤ d / 1000000000 := hc
      have h4 := (Int.le_ediv_iff_mul_le
        (show (0:Int) < 1000000000 by norm_num)).1 h3
      omega
    rw [if_neg (by omega), if_neg (by omega)]

/-- C2: RetryAfter/RetryAfterContext returns at least 1 on every input and
every Redis outcome; and when the delta query succeeds with value d, the
result is floor(d / 1s) + 1 when that floor is positive and 1 otherwise. -/
theorem retryafter_at_least_one (c : clusterLimitRedis) (ctx : Bool)
    (f : Faults) (b : RedisBucket) (now now2 : Int) :
    1 ≤ (RetryAfterContext c ctx f b now now2).1 ∧
    ∀ d, (deltaFrom c ctx f b now now2).1 = .ok d →
      (RetryAfterContext c ctx f b now now2).1 =
        if 0 < Int.fdiv d 1000000000 then Int.fdiv d 1000000000 + 1 else 1 := by
  unfold RetryAfterContext
  split
  · rename_i e eff heq
    refine ⟨by norm_num, ?_⟩
    intro d hd
    rw [heq] at hd
    simp at hd
  · rename_i retr eff heq
    constructor
    · split
      · rename_i hp
        show 1 ≤ Int.tdiv retr 1000000000 + 1
        omega
      · show (1:Int) ≤ 1
        exact le_refl 1
    · intro d hd
      rw [heq] at hd
      have hd' : retr = d := by simpa using hd
      subst hd'
      rw [← secs_trunc_floor_agree retr]
      by_cases hp : 0 < Int.tdiv retr 1000000000
      · simp only [if_pos hp]
      · simp only [if_neg hp]

/-- C2 witness: scenario S2 discharges the success-path hypothesis, the
delta being 7s and the result 8. -/
theorem retryafter_at_least_one_witness :
    1 ≤ (RetryAfterContext sampleLimiter false noFaults s1Bucket
          3000000000 3000000000).1 ∧
    (RetryAfterContext sampleLimiter false noFaults s1Bucket
        3000000000 3000000000).1 =
      if 0 < Int.fdiv 7000000000 1000000000
      then Int.fdiv 7000000000 1000000000 + 1 else 1 :=
  ⟨(retryafter_at_least_one sampleLimiter false noFaults s1Bucket
      3000000000 3000000000).1,
   (retryafter_at_least_one sampleLimiter false noFaults s1Bucket
      3000000000 3000000000).2 7000000000 (by decide)⟩

/-- The admit tail always returns true (fail-open past the decision). -/
theorem allowTail_allowed (c : clusterLimitRedis) (ctx : Bool) (f : Faults)
    (b1 : RedisBucket) (now : Int) (cf : Bool) (effs : List Effect) :
    (allowTail c ctx f b1 now cf effs).allowed = true := by
  simp only [allowTail]
  split <;> rfl

/-- The admit tail adds no forbids counter. -/
theorem allowTail_count_forbids (c : clusterLimitRedis) (ctx : Bool)
    (f : Faults) (b1 : RedisBucket) (now : Int) (cf : Bool)
    (effs : List Effect) :
    (allowTail c ctx f b1 now cf effs).effects.count
      (Effect.incCounter "swarm.redis.forbids")
      = effs.count (Effect.incCounter "swarm.redis.forbids") := by
  obtain ⟨f1, f2, f3, f4, f5⟩ := f
  cases f3 <;> cases f4 <;> cases ctx <;>
    simp [allowTail, spanEff, allowMeasure,
      List.count_append, List.count_cons, List.count_nil]

/-- The admit tail issues the ZADD command exactly once, whether or not the
command fails. -/
theorem allowTail_count_zadd (c : clusterLimitRedis) (ctx : Bool) (f : Faults)
    (b1 : RedisBucket) (now : Int) (cf : Bool) (effs : List Effect) :
    (allowTail c ctx f b1 now cf effs).effects.count (Effect.redisOp "zadd")
      = effs.count (Effect.redisOp "zadd") + 1 := by
  obtain ⟨f1, f2, f3, f4, f5⟩ := f
  cases f3 <;> cases f4 <;> cases ctx <;>
    simp [allowTail, spanEff, allowMeasure,
      List.count_append, List.count_cons, List.count_nil]

/-- AllowContext denies exactly when the prune+count pair succeeded and the
count reached maxHits. -/
theorem AllowContext_allowed (c : clusterLimitRedis) (ctx : Bool) (f : Faults)
    (b : RedisBucket) (now : Int) :
    (AllowContext c ctx f b now).allowed = !(deniedB c f b now) := by
  obtain ⟨f1, f2, f3, f4, f5⟩ := f
  unfold AllowContext
  cases f1 <;> cases f2 <;>
    simp [allowCheckCard, deniedB, allowTail_allowed] <;>
    by_cases hcnt : c.maxHits ≤ zcard (zremRangeByScore b 0 (now - c.window)) <;>
    simp [hcnt, allowTail_allowed]

/-- The forbids counter is emitted exactly on the deny path. -/
theorem AllowContext_count_forbids (c : clusterLimitRedis) (ctx : Bool)
    (f : Faults) (b : RedisBucket) (now : Int) :
    (AllowContext c ctx f b now).effects.count
      (Effect.incCounter "swarm.redis.forbids")
      = if deniedB c f b now then 1 else 0 := by
  obtain ⟨f1, f2, f3, f4, f5⟩ := f
  unfold AllowContext
  cases f1 <;> cases f2 <;>
    simp [allowCheckCard, deniedB, allowTail_count_forbids,
      spanEff_count_incCounter, List.count_append, List.count_cons,
      List.count_nil] <;>
    by_cases hcnt : c.maxHits ≤ zcard (zremRangeByScore b 0 (now - c.window)) <;>
    simp [hcnt, allowTail_count_forbids, allowMeasure, spanEff_count_incCounter,
      List.count_append, List.count_cons, List.count_nil]

/-- ZADD is issued exactly on the admit path. -/
theorem AllowContext_count_zadd (c : clusterLimitRedis) (ctx : Bool)
    (f : Faults) (b : RedisBucket) (now : Int) :
    (AllowContext c ctx f b now).effects.count (Effect.redisOp "zadd")
      = if deniedB c f b now then 0 else 1 := by
  obtain ⟨f1, f2, f3, f4, f5⟩ := f
  unfold AllowContext
  cases f1 <;> cases f2 <;>
    simp [allowCheckCard, deniedB, allowTail_count_zadd,
      spanEff_count_redisOp, List.count_append, List.count_cons,
      List.count_nil] <;>
    by_cases hcnt : c.maxHits ≤ zcard (zremRangeByScore b 0 (now - c.window)) <;>
    simp [hcnt, allowTail_count_zadd, allowMeasure, spanEff_count_redisOp,
      List.count_append, List.count_cons, List.count_nil]

/-- When every Redis op fails the call still admits and the failure timer is
recorded. -/
theorem AllowContext_allFaults_open (c : clusterLimitRedis) (ctx : Bool)
    (b : RedisBucket) (now : Int) :
    (AllowContext c ctx allFaults b now).allowed = true ∧
    allowMeasure c true ∈ (AllowContext c ctx allFaults b now).effects := by
  cases ctx <;> simp [AllowContext, allFaults, allowCheckCard, allowTail, spanEff]

/-- C1: an Allow/AllowContext call denies exactly when the prune and the
count succeed and the post-prune count reaches maxHits; on that deny path
the forbids counter is emitted once and no ZADD is issued; on every other
path the call admits (fail-open) and issues exactly one ZADD; with all Redis
ops failing the call still admits and records the failure timer. -/
theorem allow_decision (c : clusterLimitRedis) (ctx : Bool) (f : Faults)
    (b : RedisBucket) (now : Int) :
    (AllowContext c ctx f b now).allowed = !(deniedB c f b now) ∧
    (AllowContext c ctx f b now).effects.count
      (Effect.incCounter "swarm.redis.forbids")
      = (if deniedB c f b now then 1 else 0) ∧
    (AllowContext c ctx f b now).effects.count (Effect.redisOp "zadd")
      = (if deniedB c f b now then 0 else 1) ∧
    (AllowContext c ctx allFaults b now).allowed = true ∧
    allowMeasure c true ∈ (AllowContext c ctx allFaults b now).effects :=
  ⟨AllowContext_allowed c ctx f b now,
   AllowContext_count_forbids c ctx f b now,
   AllowContext_count_zadd c ctx f b now,
   (AllowContext_allFaults_open c ctx b now).1,
   (AllowContext_allFaults_open c ctx b now).2⟩

/-- C3: the delta used by Delta and RetryAfter equals
window - (from - oldest) whenever the oldest query returns a parseable
entry and no int64 saturation or wrap occurs; and in scenario S2 (window
10s, maxHits 3, oldest entry at t=0) RetryAfter at t=3s returns 8. -/
theorem delta_window_minus_gap (c : clusterLimitRedis) (ctx : Bool)
    (f : Faults) (b : RedisBucket) (tFrom now2 : Int) (z : ZEntry)
    (s : String) (v : Int)
    (hfr : f.zrangeFail = false)
    (hz : zrangeFirst b 0 now2 = some z)
    (hm : z.member = RMember.str s)
    (hp : goParseInt64 s = some v)
    (hg1 : i64min ≤ tFrom - v) (hg2 : tFrom - v ≤ i64max)
    (hd1 : i64min ≤ c.window - (tFrom - v))
    (hd2 : c.window - (tFrom - v) ≤ i64max) :
    (deltaFrom c ctx f b tFrom now2).1 = .ok (c.window - (tFrom - v)) ∧
    (RetryAfter sampleLimiter noFaults s1Bucket 3000000000 3000000000).1 = 8 := by
  constructor
  · simp [deltaFrom, oldest, hfr, hz, hm, hp]
    rw [timeSub_eq_sub hg1 hg2]
    exact wrap64_eq_self hd1 hd2
  · decide

/-- C3 witness: the S1 bucket at t=3s has oldest entry 0, the delta is 7s. -/
theorem delta_window_minus_gap_witness :
    (deltaFrom sampleLimiter false noFaults s1Bucket 3000000000 3000000000).1 =
      .ok (sampleLimiter.window - (3000000000 - 0)) ∧
    (RetryAfter sampleLimiter noFaults s1Bucket 3000000000 3000000000).1 = 8 :=
  delta_window_minus_gap sampleLimiter false noFaults s1Bucket
    3000000000 3000000000 ⟨0, .str "0"⟩ "0" 0
    (by decide) (by decide) rfl (by decide)
    (by decide) (by decide) (by decide) (by decide)

/-- C4: after an Allow/AllowContext call that returns true with no Redis op
failing, the bucket holds the entry whose member is the admission instant in
nanoseconds (stored as its decimal string) with that instant as score, and
the TTL was set to window + 1s. -/
theorem allow_admit_bucket (c : clusterLimitRedis) (ctx : Bool)
    (b : RedisBucket) (now : Int)
    (h : (AllowContext c ctx noFaults b now).allowed = true) :
    ZEntry.mk now (RMember.str (toString now)) ∈
      (AllowContext c ctx noFaults b now).bucket.entries ∧
    (AllowContext c ctx noFaults b now).bucket.ttlNanos =
      some (c.window + 1000000000) := by
  by_cases hcnt : c.maxHits ≤ zcard (zremRangeByScore b 0 (now - c.window))
  · exfalso
    rw [AllowContext_allowed] at h
    simp [deniedB, noFaults, hcnt] at h
  · constructor
    · simp only [AllowContext, allowCheckCard, allowTail, noFaults, if_neg hcnt,
        Bool.false_eq_true, if_false, expire]
      exact zadd_mem _ now _
    · simp only [AllowContext, allowCheckCard, allowTail, noFaults, if_neg hcnt,
        Bool.false_eq_true, if_false, expire]

/-- C4 witness: the first admission on an empty bucket at t=0. -/
theorem allow_admit_bucket_witness :
    (AllowContext sampleLimiter false noFaults emptyBucket 0).allowed = true ∧
    ZEntry.mk 0 (RMember.str (toString (0 : Int))) ∈
      (AllowContext sampleLimiter false noFaults emptyBucket 0).bucket.entries ∧
    (AllowContext sampleLimiter false noFaults emptyBucket 0).bucket.ttlNanos =
      some (sampleLimiter.window + 1000000000) :=
  ⟨by decide,
   (allow_admit_bucket sampleLimiter false emptyBucket 0 (by decide)).1,
   (allow_admit_bucket sampleLimiter false emptyBucket 0 (by decide)).2⟩

/-- C6: an empty bucket is not an error: the oldest query returns the zero
time with no error, Delta returns the large negative duration
window - maxDuration, and RetryAfter returns 1 (for a realistic clock
0 ≤ now and a window in [0, maxDuration)). -/
theorem empty_bucket_results (c : clusterLimitRedis) (ctx : Bool) (f : Faults)
    (b : RedisBucket) (now now2 : Int)
    (hfr : f.zrangeFail = false)
    (hempty : zrangeFirst b 0 now2 = none)
    (hnow : 0 ≤ now) (hw0 : 0 ≤ c.window) (hwmax : c.window < i64max) :
    (oldest f ctx b now2).1 = .ok zeroTimeNanos ∧
    (Oldest f b now2).1 = zeroTimeNanos ∧
    (Delta c f b now now2).1 = c.window - i64max ∧
    (Delta c f b now now2).1 < 0 ∧
    (RetryAfterContext c ctx f b now now2).1 = 1 := by
  have hold : ∀ cx : Bool, (oldest f cx b now2).1 = .ok zeroTimeNanos := by
    intro cx
    simp [oldest, hfr, hempty]
  have hts : timeSub now zeroTimeNanos = i64max := by
    apply timeSub_sat_max
    unfold zeroTimeNanos i64max
    omega
  have hdf : ∀ cx : Bool,
      (deltaFrom c cx f b now now2).1 = .ok (c.window - i64max) := by
    intro cx
    rcases ho : oldest f cx b now2 with ⟨r1, r2⟩
    have h1 := hold cx
    rw [ho] at h1
    simp only [] at h1
    subst h1
    unfold deltaFrom
    rw [ho]
    simp only []
    rw [hts]
    have hb1 : i64min ≤ c.window - i64max := by
      simp only [i64min, i64max] at hwmax ⊢
      omega
    have hb2 : c.window - i64max ≤ i64max := by
      simp only [i64min, i64max] at hwmax ⊢
      omega
    rw [wrap64_eq_self hb1 hb2]
  have hdelta : (Delta c f b now now2).1 = c.window - i64max := by
    rcases hd : deltaFrom c false f b now now2 with ⟨d1, d2⟩
    have h1 := hdf false
    rw [hd] at h1
    simp only [] at h1
    subst h1
    unfold Delta
    rw [hd]
  refine ⟨hold ctx, ?_, hdelta, ?_, ?_⟩
  · rcases ho : oldest f false b now2 with ⟨r1, r2⟩
    have h1 := hold false
    rw [ho] at h1
    simp only [] at h1
    subst h1
    unfold Oldest
    rw [ho]
  · rw [hdelta]
    simp only [i64max] at hwmax ⊢
    omega
  · rcases hd : deltaFrom c ctx f b now now2 with ⟨d1, d2⟩
    have h1 := hdf ctx
    rw [hd] at h1
    simp only [] at h1
    subst h1
    unfold RetryAfterContext
    rw [hd]
    have hneg : c.window - i64max ≤ 0 := by
      simp only [i64max] at hwmax ⊢
      omega
    have htd : Int.tdiv (c.window - i64max) 1000000000 ≤ 0 :=
      tdiv_nonpos_of_nonpos hneg (by norm_num)
    have hnotpos : ¬ (0 < Int.tdiv (c.window - i64max) 1000000000) := by omega
    simp [hnotpos]

/-- C6 witness: scenario S3, an untouched key at t=3s. -/
theorem empty_bucket_results_witness :
    (oldest noFaults false emptyBucket 3000000000).1 = .ok zeroTimeNanos ∧
    (Oldest noFaults emptyBucket 3000000000).1 = zeroTimeNanos ∧
    (Delta sampleLimiter noFaults emptyBucket 3000000000 3000000000).1 =
      sampleLimiter.window - i64max ∧
    (Delta sampleLimiter noFaults emptyBucket 3000000000 3000000000).1 < 0 ∧
    (RetryAfterContext sampleLimiter false noFaults emptyBucket
        3000000000 3000000000).1 = 1 :=
  empty_bucket_results sampleLimiter false noFaults emptyBucket
    3000000000 3000000000 (by decide) (by decide) (by decide) (by decide)
    (by decide)

/-- C7: a malformed first member (non-string, or unparseable as a decimal
64-bit integer) makes the oldest query report an error; the public Oldest
returns the zero time, RetryAfter returns 1, and the failure-labelled
retryafter timer is recorded. -/
theorem malformed_member_results (c : clusterLimitRedis) (ctx : Bool)
    (f : Faults) (b : RedisBucket) (now now2 : Int) (z : ZEntry)
    (hfr : f.zrangeFail = false)
    (hz : zrangeFirst b 0 now2 = some z)
    (hbad : z.member = RMember.nonString ∨
      ∃ s, z.member = RMember.str s ∧ goParseInt64 s = none) :
    (∃ e, (oldest f ctx b now2).1 = .error e) ∧
    (Oldest f b now2).1 = zeroTimeNanos ∧
    (RetryAfterContext c ctx f b now now2).1 = 1 ∧
    retryAfterMeasure c true ∈ (RetryAfterContext c ctx f b now now2).2 := by
  have hold : ∀ cx : Bool, ∃ e, (oldest f cx b now2).1 = .error e := by
    intro cx
    rcases hbad with hm | ⟨s, hm, hp⟩
    · exact ⟨.notString, by simp [oldest, hfr, hz, hm]⟩
    · exact ⟨.parseFailed, by simp [oldest, hfr, hz, hm, hp]⟩
  have hdf : ∀ cx : Bool, ∃ e, (deltaFrom c cx f b now now2).1 = .error e := by
    intro cx
    obtain ⟨e, he⟩ := hold cx
    rcases ho : oldest f cx b now2 with ⟨r1, r2⟩
    rw [ho] at he
    simp only [] at he
    subst he
    exact ⟨e, by unfold deltaFrom; rw [ho]⟩
  refine ⟨hold ctx, ?_, ?_, ?_⟩
  · obtain ⟨e, he⟩ := hold false
    rcases ho : oldest f false b now2 with ⟨r1, r2⟩
    rw [ho] at he
    simp only [] at he
    subst he
    unfold Oldest
    rw [ho]
  · obtain ⟨e, he⟩ := hdf ctx
    rcases hd : deltaFrom c ctx f b now now2 with ⟨d1, d2⟩
    rw [hd] at he
    simp only [] at he
    subst he
    unfold RetryAfterContext
    rw [hd]
  · obtain ⟨e, he⟩ := hdf ctx
    rcases hd : deltaFrom c ctx f b now now2 with ⟨d1, d2⟩
    rw [hd] at he
    simp only [] at he
    subst he
    unfold RetryAfterContext
    rw [hd]
    simp

/-- C7 witness: a bucket whose only member is the unparseable string abc. -/
theorem malformed_member_results_witness :
    (∃ e, (oldest noFaults false malformedBucket 10).1 = .error e) ∧
    (Oldest noFaults malformedBucket 10).1 = zeroTimeNanos ∧
    (RetryAfterContext sampleLimiter false noFaults malformedBucket 10 10).1
      = 1 ∧
    retryAfterMeasure sampleLimiter true ∈
      (RetryAfterContext sampleLimiter false noFaults malformedBucket 10 10).2 :=
  malformed_member_results sampleLimiter false noFaults malformedBucket 10 10
    ⟨5, .str "abc"⟩ (by decide) (by decide)
    (Or.inr ⟨"abc", rfl, by decide⟩)

end Ratelimit

end Skipper
